import Mathlib

/-!
Verification of the namecheap-python client library.

This file shallowly embeds the response-normalization, error-mapping and
command-method layers of the library (`src/namecheap/base.py`,
`src/namecheap/api/domains/base.py`, `src/namecheap/api/domains/dns.py`,
`src/namecheap/enhanced/domains.py`) as executable Lean definitions and
proves properties of the embedding.

Python values flowing through the client (strings, booleans, integers,
floats, `None`, dicts, lists, `datetime` objects) are modelled by the
inductive type `Value`; dicts are insertion-ordered association lists,
floats are modelled as rationals (only parsing and order comparisons are
performed on them in the source).  Python exceptions are modelled by the
`Except` monad: `Except.error` is a raised exception.
-/

namespace Namecheap

/-- A parsed date-time as produced by Python `datetime.datetime.strptime`. -/
structure PyDateTime where
  year : Nat
  month : Nat
  day : Nat
  hour : Nat
  minute : Nat
  second : Nat
deriving DecidableEq, Repr

/-- Python runtime values handled by the client.  Dicts are modelled as
insertion-ordered association lists with string keys (all dict keys in the
embedded code are strings); floats as rationals. -/
inductive Value where
  | vStr (s : String)
  | vBool (b : Bool)
  | vInt (n : Int)
  | vFloat (q : Rat)
  | vNone
  | vDate (d : PyDateTime)
  | vMap (fields : List (String × Value))
  | vList (items : List Value)
deriving Repr

namespace Value

/-- Python truthiness (`bool(v)`). -/
def truthy : Value → Bool
  | vStr s => s != ""
  | vBool b => b
  | vInt n => n != 0
  | vFloat q => if q = 0 then false else true
  | vNone => false
  | vDate _ => true
  | vMap fields => !fields.isEmpty
  | vList items => !items.isEmpty

/-- `isinstance(v, str)`. -/
def isStr : Value → Bool
  | vStr _ => true
  | _ => false

/-- `isinstance(v, list)`. -/
def isList : Value → Bool
  | vList _ => true
  | _ => false

/-- `isinstance(v, dict)`. -/
def isMap : Value → Bool
  | vMap _ => true
  | _ => false

end Value

/-- Dict lookup `d.get(k)` on an association list (first binding wins;
lists built by `setA` have unique keys, as Python dicts do). -/
def lookupA (fields : List (String × Value)) (k : String) : Option Value :=
  match fields with
  | [] => none
  | (k', v) :: rest => if k' = k then some v else lookupA rest k

/-- Dict lookup with default, `d.get(k, dflt)`. -/
def getD (fields : List (String × Value)) (k : String) (dflt : Value) : Value :=
  (lookupA fields k).getD dflt

/-- Dict assignment `d[k] = v`: replaces the binding in place when the key
is present (Python dicts keep the original insertion position), appends
otherwise. -/
def setA (fields : List (String × Value)) (k : String) (v : Value) :
    List (String × Value) :=
  match fields with
  | [] => [(k, v)]
  | (k', v') :: rest =>
    if k' = k then (k, v) :: rest else (k', v') :: setA rest k v

/-- Dict membership `k in d`. -/
def memA (fields : List (String × Value)) (k : String) : Bool :=
  (lookupA fields k).isSome

/-- Python `str.split(sep)` for a one-character separator, on character
lists.  `"".split(".") = [""]`, `"a..b".split(".") = ["a", "", "b"]`. -/
def pySplitChar (sep : Char) : List Char → List (List Char)
  | [] => [[]]
  | c :: cs =>
    if c = sep then [] :: pySplitChar sep cs
    else
      match pySplitChar sep cs with
      | [] => [[c]]
      | g :: gs => (c :: g) :: gs

/-- Python `str.split(sep)` on strings. -/
def pySplit (sep : Char) (s : String) : List String :=
  (pySplitChar sep s.data).map String.mk

/-- Python `"." .join(groups)` on character lists. -/
def joinDotChars : List (List Char) → List Char
  | [] => []
  | [g] => g
  | g :: gs => g ++ '.' :: joinDotChars gs

/-- `_split_domain_name` from `src/namecheap/api/domains/base.py` lines
39-52 (the copy in `src/namecheap/api/domains/dns.py` lines 51-56 is
identical):
`parts = domain_name.split("."); sld = parts[0]; tld = ".".join(parts[1:])`. -/
def splitDomainName (domainName : String) : String × String :=
  match pySplitChar '.' domainName.data with
  | [] => ("", "")
  | sld :: rest => (String.mk sld, String.mk (joinDotChars rest))

/-- `pat` matches at the head of `s`, on character lists. -/
def leadMatch : List Char → List Char → Bool
  | [], _ => true
  | _ :: _, [] => false
  | a :: as, b :: bs => a = b && leadMatch as bs

/-- `sub` occurs somewhere inside `s`, on character lists. -/
def occursIn (sub : List Char) : List Char → Bool
  | [] => leadMatch sub []
  | b :: bs => leadMatch sub (b :: bs) || occursIn sub bs

/-- Substring test, Python `sub in s`. -/
def containsSub (s sub : String) : Bool :=
  occursIn sub.data s.data

/-- Replace every (non-overlapping, leftmost-first) occurrence of `pat`
by `rep`, scanning left to right; `fuel` bounds the number of steps and
is instantiated with the length of the scanned list, which suffices since
every step consumes at least one character. -/
def replaceFuel (pat rep : List Char) : Nat → List Char → List Char
  | _, [] => []
  | 0, s => s
  | fuel + 1, c :: cs =>
    if pat ≠ [] ∧ leadMatch pat (c :: cs) then
      rep ++ replaceFuel pat rep fuel (List.drop pat.length (c :: cs))
    else
      c :: replaceFuel pat rep fuel cs

/-- Python `s.replace(pat, rep)` for a non-empty pattern (every pattern
substituted in the source is a brace-delimited token, hence non-empty). -/
def pyReplace (s pat rep : String) : String :=
  if pat = "" then s
  else String.mk (replaceFuel pat.data rep.data s.data.length s.data)

/-- Python `str(v)` for the value kinds that occur in error-message
contexts in the source (all call sites pass strings; int and bool are
included for completeness). -/
def pyStr : Value → String
  | .vStr s => s
  | .vBool true => "True"
  | .vBool false => "False"
  | .vInt n => toString n
  | .vNone => "None"
  | v => toString (repr v)

/-- Lookup in a string-keyed association list (first match wins),
modelling Python dict lookup for the error catalogs. -/
def lookupS {α : Type} (entries : List (String × α)) (k : String) : Option α :=
  match entries with
  | [] => none
  | (k', v) :: rest => if k' = k then some v else lookupS rest k

/-- `d.get(k, dflt)` for a string-valued dict (catalog entries). -/
def getSD (entries : List (String × String)) (k : String) (dflt : String) : String :=
  (lookupS entries k).getD dflt

/-- The `{token}` substitution loop of `_parse_response`
(`src/namecheap/base.py` lines 475-484), applied to one of the
explanation/fix strings: for each `(k, v)` in the context, in order, if
the string is truthy and contains `\x7b k \x7d`, replace every occurrence
by `str(v)`. -/
def substTokens (ctx : List (String × Value)) (s : String) : String :=
  ctx.foldl
    (fun acc kv =>
      let placeholder := "\x7b" ++ kv.1 ++ "\x7d"
      if acc ≠ "" ∧ containsSub acc placeholder then
        pyReplace acc placeholder (pyStr kv.2)
      else acc)
    s

/-- A raised `NamecheapException` (the `exceptions` module itself is not
part of the sources; only the constructor-argument payload observable at
`raise` sites is modelled). -/
structure NcError where
  code : Value
  message : Value
  explanation : Option String
  fix : Option String
  rawResponse : Option String
deriving Repr

/-- Exceptions inside `_parse_response`: either a plain Python exception
(ExpatError, AttributeError, IndexError, ...) carrying its message, or a
`NamecheapException`. -/
inductive PyExc where
  | pyErr (msg : String)
  | ncExc (e : NcError)

/-- `v.get(k, dflt)` where `v` may be any value: succeeds on dicts,
raises `AttributeError` otherwise. -/
def pyGetE (v : Value) (k : String) (dflt : Value) : Except PyExc Value :=
  match v with
  | .vMap fields => .ok (getD fields k dflt)
  | _ => .error (.pyErr "AttributeError: object has no attribute get")

/-- Python `status == "ERROR"` where `status` is an arbitrary value. -/
def isErrorStatus : Value → Bool
  | .vStr s => s = "ERROR"
  | _ => false

/-- An error catalog: error-code string to `{explanation, fix}` dict. -/
abbrev ErrorCatalog := List (String × List (String × String))

/-- The body of the `try` block of `_parse_response`
(`src/namecheap/base.py` lines 446-511), starting after `xmltodict.parse`
whose outcome (the parsed top-level dict, or the exception it raised) is
the `parsed` argument. -/
def catalogLookup (errorCodes : Option ErrorCatalog) (errorNum : Value)
    (context : List (String × Value)) : Option String × Option String :=
  match errorCodes, errorNum with
  | some cat, .vStr c =>
    if cat.isEmpty then (none, none)
    else
      match lookupS cat c with
      | some info =>
        (some (substTokens context (getSD info "explanation" "")),
         some (substTokens context (getSD info "fix" "")))
      | none => (none, none)
  | _, _ => (none, none)

def parseResponseInner (parsed : Except String (List (String × Value)))
    (rawText : String) (errorCodes : Option ErrorCatalog)
    (context : List (String × Value)) : Except PyExc Value :=
  match parsed with
  | .error e => .error (.pyErr e)
  | .ok responseDict =>
    let apiResponse := getD responseDict "ApiResponse" (.vMap [])
    match pyGetE apiResponse "@Status" (.vStr "UNKNOWN") with
    | .error e => .error e
    | .ok status =>
      if isErrorStatus status then
        match pyGetE apiResponse "Errors" (.vMap []) with
        | .error e => .error e
        | .ok errors =>
          match pyGetE errors "Error" (.vMap []) with
          | .error e => .error e
          | .ok error0 =>
            match (match error0 with
                   | .vList [] =>
                     Except.error (PyExc.pyErr "IndexError: list index out of range")
                   | .vList (x :: _) => Except.ok x
                   | x => Except.ok x) with
            | .error e => .error e
            | .ok error1 =>
              match pyGetE error1 "@Number" (.vStr "UNKNOWN_ERROR") with
              | .error e => .error e
              | .ok errorNum =>
                match pyGetE error1 "#text" (.vStr "Unknown error occurred") with
                | .error e => .error e
                | .ok errorMsg =>
                  let ef := catalogLookup errorCodes errorNum context
                  match pyGetE apiResponse "CommandResponse" (.vMap []) with
                  | .error e => .error e
                  | .ok _ =>
                    .error (.ncExc
                      { code := errorNum, message := errorMsg
                        explanation := ef.1, fix := ef.2
                        rawResponse := some rawText })
      else
        pyGetE apiResponse "CommandResponse" (.vMap [])

/-- `_parse_response` from `src/namecheap/base.py` lines 427-523: the
inner body wrapped by the `except Exception` clause that converts any
non-`NamecheapException` into a `PARSE_ERROR` exception. -/
def parseResponse (parsed : Except String (List (String × Value)))
    (rawText : String) (errorCodes : Option ErrorCatalog)
    (context : List (String × Value)) : Except NcError Value :=
  match parseResponseInner parsed rawText errorCodes context with
  | .ok v => .ok v
  | .error (.ncExc e) => .error e
  | .error (.pyErr m) =>
    .error { code := .vStr "PARSE_ERROR"
             message := .vStr ("Failed to parse API response: " ++ m)
             explanation := none, fix := none, rawResponse := some rawText }

/-- The parsed shape (after `xmltodict.parse`) of an `ERROR` envelope
carrying one error entry with number `c` and message text `m`. -/
def errEnvelope (c m : String) : List (String × Value) :=
  [("ApiResponse", .vMap
    [("@Status", .vStr "ERROR"),
     ("Errors", .vMap [("Error", .vMap
       [("@Number", .vStr c), ("#text", .vStr m)])])])]

/-- The same envelope with the `Number` attribute missing from the
`Error` element. -/
def errEnvelopeNoNum (m : String) : List (String × Value) :=
  [("ApiResponse", .vMap
    [("@Status", .vStr "ERROR"),
     ("Errors", .vMap [("Error", .vMap [("#text", .vStr m)])])])]

/-- The raw response text used by the repository's own tests
(`src/tests/tests.py` `test_error_response`, `src/tests/test_namecheap.py`
`test_parse_error_response`): it carries error code 1011102 and the
literal invalid-API-key message, but the `<Error>` element is closed by a
mismatched `</e>` tag, so `xmltodict.parse` raises an `ExpatError`
instead of producing an envelope. -/
def malformedApiKeyResponse : String :=
  "<?xml version=\"1.0\" encoding=\"UTF-8\"?>\n" ++
  "<ApiResponse Status=\"ERROR\" xmlns=\"http://api.namecheap.com/xml.response\">\n" ++
  "  <Errors>\n" ++
  "    <Error Number=\"1011102\">API Key is invalid or API access has not been enabled</e>\n" ++
  "  </Errors>\n" ++
  "  <Warnings />\n" ++
  "  <RequestedCommand>namecheap.domains.check</RequestedCommand>\n" ++
  "</ApiResponse>"

/-- ASCII lower-casing of one character (Python `str.lower`; all token
sets compared against in the source are ASCII). -/
def lowerChar (c : Char) : Char :=
  if 'A' ≤ c ∧ c ≤ 'Z' then Char.ofNat (c.toNat + 32) else c

/-- Python `s.lower()` for the ASCII strings compared in the source. -/
def pyLower (s : String) : String :=
  String.mk (s.data.map lowerChar)

/-- `key.startswith("@")`. -/
def atKey (k : String) : Bool :=
  match k.data with
  | c :: _ => c = '@'
  | [] => false

/-- `key[1:]` for a key that starts with `"@"`, else the key itself:
`clean_key = key[1:] if key.startswith('@') else key`. -/
def stripAt (k : String) : String :=
  match k.data with
  | c :: rest => if c = '@' then String.mk rest else k
  | [] => k

/-- `key.startswith("Is")`. -/
def startsIs (k : String) : Bool :=
  match k.data with
  | a :: b :: _ => a = 'I' && b = 's'
  | _ => false

/-- The cleaned key of `_normalize_item` (`src/namecheap/base.py` lines
313-319): strip a leading `@`, then let an entry of the field mapping
(keyed by the original key) override. -/
def cleanKey (fieldMapping : List (String × String)) (k : String) : String :=
  match lookupS fieldMapping k with
  | some mapped => mapped
  | none => stripAt k

/-- First pass of `_normalize_item`: rebuild the dict under cleaned
keys (`result[clean_key] = value`). -/
def pass1 (fieldMapping : List (String × String))
    (fields : List (String × Value)) : List (String × Value) :=
  fields.foldl (fun acc kv => setA acc (cleanKey fieldMapping kv.1) kv.2) []

/-- Boolean coercion of one value at one key (`src/namecheap/base.py`
lines 325-336): keys with an `Is` prefix or listed in `boolean_fields`
coerce any string against the token set `true/yes/enabled/1`; other keys
coerce only the exact strings `true`/`false` (case-insensitively). -/
def boolStep (booleanFields : List String) (k : String) (v : Value) : Value :=
  if startsIs k || booleanFields.contains k then
    match v with
    | .vStr s => .vBool (["true", "yes", "enabled", "1"].contains (pyLower s))
    | _ => v
  else
    match v with
    | .vStr s =>
      if ["true", "false"].contains (pyLower s) then .vBool (pyLower s == "true")
      else v
    | _ => v

/-- Second pass of `_normalize_item`: the `for key in result` loop
updating each value in place (keys built by `pass1` are unique, so the
loop is a pointwise map over the entries). -/
def pass2 (booleanFields : List String)
    (result : List (String × Value)) : List (String × Value) :=
  result.map (fun kv => (kv.1, boolStep booleanFields kv.1 kv.2))

/-- One decimal digit. -/
def digitVal (c : Char) : Option Nat :=
  if '0' ≤ c ∧ c ≤ '9' then some (c.toNat - '0'.toNat) else none

/-- Exactly four digits (`%Y` in CPython's strptime). -/
def read4 (cs : List Char) : Option (Nat × List Char) :=
  match cs with
  | a :: b :: c :: d :: rest =>
    match digitVal a, digitVal b, digitVal c, digitVal d with
    | some w, some x, some y, some z => some (1000*w + 100*x + 10*y + z, rest)
    | _, _, _, _ => none
  | _ => none

/-- Two digits if available, else one (`%m`, `%d`, `%H`, `%M`, `%S` all
match one or two digits; each is followed by a non-digit separator or the
end of the string in the four formats used, so greedy reading is
equivalent to the regex alternation CPython compiles). -/
def read2or1 (cs : List Char) : Option (Nat × List Char) :=
  match cs with
  | a :: b :: rest =>
    match digitVal a, digitVal b with
    | some x, some y => some (10*x + y, rest)
    | some x, none => some (x, b :: rest)
    | _, _ => none
  | [a] => (digitVal a).map (fun x => (x, ([] : List Char)))
  | [] => none

/-- One literal character. -/
def litChar (c : Char) (cs : List Char) : Option (List Char) :=
  match cs with
  | c' :: rest => if c' = c then some rest else none
  | [] => none

/-- Days in a month, with Gregorian leap years (Python `datetime`
validates the day against the month when `strptime` builds the result;
an invalid day raises `ValueError`, which the source's loop treats as
a failed format). -/
def daysInMonth (y m : Nat) : Nat :=
  if m = 2 then
    if y % 4 = 0 ∧ (y % 100 ≠ 0 ∨ y % 400 = 0) then 29 else 28
  else if m = 4 ∨ m = 6 ∨ m = 9 ∨ m = 11 then 30
  else 31

/-- `datetime.strptime(s, "%Y-%m-%d" + sep + "%H:%M:%S")` where `sep` is
`"T"` or `" "`. -/
def fmtYmdHMS (sep : Char) (cs : List Char) : Option PyDateTime :=
  match read4 cs with
  | none => none
  | some (y, cs) =>
    match litChar '-' cs with
    | none => none
    | some cs =>
      match read2or1 cs with
      | none => none
      | some (mo, cs) =>
        if 1 ≤ mo ∧ mo ≤ 12 then
          match litChar '-' cs with
          | none => none
          | some cs =>
            match read2or1 cs with
            | none => none
            | some (d, cs) =>
              if 1 ≤ d ∧ d ≤ 31 then
                match litChar sep cs with
                | none => none
                | some cs =>
                  match read2or1 cs with
                  | none => none
                  | some (h, cs) =>
                    if h ≤ 23 then
                      match litChar ':' cs with
                      | none => none
                      | some cs =>
                        match read2or1 cs with
                        | none => none
                        | some (mi, cs) =>
                          if mi ≤ 59 then
                            match litChar ':' cs with
                            | none => none
                            | some cs =>
                              match read2or1 cs with
                              | none => none
                              | some (sec, cs) =>
                                if sec ≤ 59 ∧ cs = [] ∧ d ≤ daysInMonth y mo then
                                  some ⟨y, mo, d, h, mi, sec⟩
                                else none
                          else none
                    else none
              else none
        else none

/-- `datetime.strptime(s, "%Y-%m-%d")`. -/
def fmtYmd (cs : List Char) : Option PyDateTime :=
  match read4 cs with
  | none => none
  | some (y, cs) =>
    match litChar '-' cs with
    | none => none
    | some cs =>
      match read2or1 cs with
      | none => none
      | some (mo, cs) =>
        if 1 ≤ mo ∧ mo ≤ 12 then
          match litChar '-' cs with
          | none => none
          | some cs =>
            match read2or1 cs with
            | none => none
            | some (d, cs) =>
              if 1 ≤ d ∧ d ≤ 31 ∧ cs = [] ∧ d ≤ daysInMonth y mo then
                some ⟨y, mo, d, 0, 0, 0⟩
              else none
        else none

/-- `datetime.strptime(s, "%m/%d/%Y")`. -/
def fmtMdy (cs : List Char) : Option PyDateTime :=
  match read2or1 cs with
  | none => none
  | some (mo, cs) =>
    if 1 ≤ mo ∧ mo ≤ 12 then
      match litChar '/' cs with
      | none => none
      | some cs =>
        match read2or1 cs with
        | none => none
        | some (d, cs) =>
          if 1 ≤ d ∧ d ≤ 31 then
            match litChar '/' cs with
            | none => none
            | some cs =>
              match read4 cs with
              | none => none
              | some (y, cs) =>
                if cs = [] ∧ d ≤ daysInMonth y mo then
                  some ⟨y, mo, d, 0, 0, 0⟩
                else none
          else none
    else none

/-- The datetime-format loop of `_normalize_item` (`src/namecheap/base.py`
lines 343-354): the four formats are tried in their listed order and the
first successful parse wins; failure of all four leaves the value alone. -/
def dtParse (s : String) : Option PyDateTime :=
  match fmtYmdHMS 'T' s.data with
  | some d => some d
  | none =>
    match fmtYmdHMS ' ' s.data with
    | some d => some d
    | none =>
      match fmtMdy s.data with
      | some d => some d
      | none => fmtYmd s.data

/-- Datetime coercion of one value: a string is replaced by the first
successful parse, anything else (including an already-parsed datetime)
is left untouched. -/
def dtc1 (v : Value) : Value :=
  match v with
  | .vStr s =>
    match dtParse s with
    | some d => .vDate d
    | none => v
  | _ => v

/-- One step of the `for field in datetime_fields` loop: update the
entry at `f` when it exists and holds a parsable string. -/
def dtUpdate (f : String) (result : List (String × Value)) :
    List (String × Value) :=
  match lookupA result f with
  | some (.vStr s) =>
    match dtParse s with
    | some d => setA result f (.vDate d)
    | none => result
  | _ => result

/-- Third pass of `_normalize_item`: the datetime-fields loop. -/
def pass3 (datetimeFields : List String)
    (result : List (String × Value)) : List (String × Value) :=
  datetimeFields.foldl (fun acc f => dtUpdate f acc) result

/-- Pointwise datetime coercion used to characterize `pass3` on dicts
with distinct keys. -/
def dtCoerce (datetimeFields : List String) (k : String) (v : Value) : Value :=
  if k ∈ datetimeFields then dtc1 v else v

/-- `_normalize_item` from `src/namecheap/base.py` lines 291-359; calling
`.items()` on a non-dict raises `AttributeError`. -/
def normalizeItem (item : Value) (fieldMapping : List (String × String))
    (booleanFields datetimeFields : List String) :
    Except String (List (String × Value)) :=
  match item with
  | .vMap fields =>
    .ok (pass3 datetimeFields (pass2 booleanFields (pass1 fieldMapping fields)))
  | _ => .error "AttributeError: object has no attribute items"

/-- Python `key in data` for arbitrary `data` (dict-key membership,
substring test on strings, element membership on lists; `in` on other
values raises `TypeError`). -/
def pyContains (v : Value) (k : String) : Except String Bool :=
  match v with
  | .vMap fields => .ok (memA fields k)
  | .vStr s => .ok (containsSub s k)
  | .vList items =>
    .ok (items.any (fun x => match x with | .vStr s => s == k | _ => false))
  | _ => .error "TypeError: argument is not iterable"

/-- Python `data[key]` with a string key (works on dicts; raises
`TypeError` on strings, lists and everything else). -/
def pyIndexS (v : Value) (k : String) : Except String Value :=
  match v with
  | .vMap fields =>
    match lookupA fields k with
    | some x => .ok x
    | none => .error "KeyError"
  | .vStr _ => .error "TypeError: string indices must be integers"
  | .vList _ => .error "TypeError: list indices must be integers"
  | _ => .error "TypeError: object is not subscriptable"

/-- Outcome of the dot-path loop of `normalize_api_response`
(`src/namecheap/base.py` lines 252-259): found value, early
missing-segment return, or a raised exception. -/
inductive PathOut where
  | found (v : Value)
  | missing
  | raised (msg : String)

/-- The dot-path loop: `for key in result_key.split('.')`. -/
def resolvePath (v : Value) : List String → PathOut
  | [] => .found v
  | k :: rest =>
    match pyContains v k with
    | .error m => .raised m
    | .ok false => .missing
    | .ok true =>
      match pyIndexS v k with
      | .error m => .raised m
      | .ok v' => resolvePath v' rest

/-- Normalize each item of the list branch in order, propagating the
first raised exception. -/
def normalizeItems (fieldMapping : List (String × String))
    (booleanFields datetimeFields : List String) :
    List Value → Except String (List Value)
  | [] => .ok []
  | x :: xs =>
    match normalizeItem x fieldMapping booleanFields datetimeFields with
    | .error e => .error e
    | .ok fields =>
      match normalizeItems fieldMapping booleanFields datetimeFields xs with
      | .error e => .error e
      | .ok rest => .ok (.vMap fields :: rest)

/-- `normalize_api_response` from `src/namecheap/base.py` lines 220-289.
`resultKey = none` models the default `result_key=None` (an empty string
is likewise falsy and skips extraction). -/
def normalizeApiResponse (response : Value) (resultKey : Option String)
    (fieldMapping : List (String × String))
    (booleanFields datetimeFields : List String)
    (returnType : String) : Except String Value :=
  match response with
  | .vNone =>
    if returnType == "list" then .ok (.vList []) else .ok (.vMap [])
  | _ =>
    let resolved :=
      match resultKey with
      | none => PathOut.found response
      | some rk =>
        if rk = "" then PathOut.found response
        else resolvePath response (pySplit '.' rk)
    match resolved with
    | .raised m => .error m
    | .missing =>
      if returnType == "list" then .ok (.vList []) else .ok (.vMap [])
    | .found data =>
      if returnType == "list" then
        let items :=
          match data with
          | .vList xs => xs
          | d => if d.truthy then [d] else []
        match normalizeItems fieldMapping booleanFields datetimeFields items with
        | .error e => .error e
        | .ok out => .ok (.vList out)
      else
        match normalizeItem data fieldMapping booleanFields datetimeFields with
        | .error e => .error e
        | .ok fields => .ok (.vMap fields)

/-- ASCII upper-casing of one character (Python `str.upper`; record
types handled by the source are ASCII). -/
def upperChar (c : Char) : Char :=
  if 'a' ≤ c ∧ c ≤ 'z' then Char.ofNat (c.toNat - 32) else c

/-- `v.upper()`: succeeds on strings, raises `AttributeError` otherwise. -/
def pyUpperE (v : Value) : Except String String :=
  match v with
  | .vStr s => .ok (String.mk (s.data.map upperChar))
  | _ => .error "AttributeError: object has no attribute upper"

/-- The per-host parameters built by `set_hosts`
(`src/namecheap/api/domains/dns.py` lines 197-212) for the host at
1-based index `idx`: `HostName`, `RecordType`, `Address` and `TTL` are
always set (with defaults `"@"`, `"A"`, `""`, `"1800"`), and `MXPref` is
added when the record type upper-cases to `"MX"` or the host carries an
`MXPref` key.  No field — in particular no TTL value — is validated. -/
def hostParams (idx : Nat) (host : List (String × Value)) :
    Except String (List (String × Value)) :=
  match pyUpperE (getD host "Type" (.vStr "")) with
  | .error e => .error e
  | .ok typeUpper =>
    .ok ([("HostName" ++ toString idx, getD host "Name" (.vStr "@")),
          ("RecordType" ++ toString idx, getD host "Type" (.vStr "A")),
          ("Address" ++ toString idx, getD host "Address" (.vStr "")),
          ("TTL" ++ toString idx, getD host "TTL" (.vStr "1800"))] ++
         (if typeUpper == "MX" || memA host "MXPref" then
            [("MXPref" ++ toString idx, getD host "MXPref" (.vStr "10"))]
          else []))

/-- The `for i, host in enumerate(hosts)` loop of `set_hosts`, starting
at index `idx`. -/
def hostsLoop (idx : Nat) :
    List (List (String × Value)) → Except String (List (String × Value))
  | [] => .ok []
  | h :: rest =>
    match hostParams idx h with
    | .error e => .error e
    | .ok ps =>
      match hostsLoop (idx + 1) rest with
      | .error e => .error e
      | .ok rs => .ok (ps ++ rs)

/-- Everything `set_hosts` (`src/namecheap/api/domains/dns.py` lines
126-226) computes before its network call: the SLD/TLD split and the
request-parameter mapping.  A returned `.ok` means the code reaches
`self.client._make_request` and the request is issued with exactly these
parameters; `.error` is the only way the call could abort beforehand. -/
def setHostsParams (domainName : String)
    (hosts : List (List (String × Value))) :
    Except String (List (String × Value)) :=
  let sldTld := splitDomainName domainName
  match hostsLoop 1 hosts with
  | .error e => .error e
  | .ok ps =>
    .ok ([("SLD", Value.vStr sldTld.1), ("TLD", Value.vStr sldTld.2)] ++ ps)

/-- Python `",".join(groups)` on character lists. -/
def joinCommaChars : List (List Char) → List Char
  | [] => []
  | [g] => g
  | g :: gs => g ++ ',' :: joinCommaChars gs

/-- `",".join(domains)`. -/
def joinComma (ss : List String) : String :=
  String.mk (joinCommaChars (ss.map String.data))

/-- `check` from `src/namecheap/api/domains/base.py` lines 54-114,
parameterized by the transport (`_make_request` composed with
`_parse_response`); alongside the result it records the parameter
mappings of the requests actually issued, so that "no network request"
is observable as an empty second component. -/
def domainsCheck (transport : List (String × Value) → Except String Value)
    (domains : List String) :
    Except String Value × List (List (String × Value)) :=
  if domains.isEmpty then (.ok (.vList []), [])
  else
    let params := [("DomainList", Value.vStr (joinComma domains))]
    match transport params with
    | .error e => (.error e, [params])
    | .ok response =>
      match normalizeApiResponse response (some "DomainCheckResult")
          [] [] [] "list" with
      | .error m => (.error m, [params])
      | .ok out => (.ok out, [params])

/-- `tld[1:] if tld.startswith(".") else tld` from `_get_tld_pricing`. -/
def stripDot (tld : String) : String :=
  match tld.data with
  | c :: rest => if c = '.' then String.mk rest else tld
  | [] => tld

/-- `_get_tld_pricing` from `src/namecheap/enhanced/domains.py` lines
83-123, parameterized by `getPrice`, which models
`users.get_pricing` composed with `_extract_price_from_response`
(network call plus extraction); a `.error` is any exception raised by
that pair.  The first component is the pricing mapping, the second the
log entries emitted (level, message): a failed lookup is logged at ERROR
level and the loop continues with the remaining suffixes.  Python
iterates a `set` in unspecified order; the embedding keeps first-insertion
order, on which no stated property depends. -/
def getTldPricing (getPrice : String → Except String Rat) :
    List String → List (String × Rat) × List (String × String)
  | [] => ([], [])
  | tld :: rest =>
    match getPrice (stripDot tld) with
    | .ok price =>
      let mlg := getTldPricing getPrice rest
      if 0 < price then
        ((tld, price) :: mlg.1, ("DEBUG", "Found price for " ++ tld) :: mlg.2)
      else mlg
    | .error _ =>
      let mlg := getTldPricing getPrice rest
      (mlg.1, ("ERROR", "Error getting pricing for " ++ tld) :: mlg.2)

/-- The string payload of a value expected to be a string (domain names
in check results are strings; used where the source would have already
raised on another type). -/
def strOf (v : Value) : String :=
  match v with
  | .vStr s => s
  | _ => ""

/-- All characters are decimal digits. -/
def allDigits (cs : List Char) : Bool :=
  cs.all (fun c => (digitVal c).isSome)

/-- Numeric value of a digit list. -/
def natVal (cs : List Char) : Nat :=
  cs.foldl (fun acc c => 10 * acc + ((digitVal c).getD 0)) 0

/-- Python `float(s)` on plain decimal literals — the only shape the
pricing API produces for price attributes (no exponents or specials). -/
def parseDecimal (s : String) : Option Rat :=
  let signed : Bool × List Char :=
    match s.data with
    | '-' :: rest => (true, rest)
    | '+' :: rest => (false, rest)
    | cs => (false, cs)
  let intPart := signed.2.takeWhile (fun c => (digitVal c).isSome)
  let rest := signed.2.dropWhile (fun c => (digitVal c).isSome)
  let build : Rat → Option Rat := fun q =>
    some (if signed.1 then -q else q)
  match rest with
  | [] => if intPart.isEmpty then none else build (natVal intPart)
  | '.' :: frac =>
    if allDigits frac ∧ (intPart ≠ [] ∨ frac ≠ []) then
      build ((natVal intPart : Rat) + (natVal frac : Rat) / ((10 : Rat) ^ frac.length))
    else none
  | _ => none

/-- Python `float(v)` as used on premium-price values. -/
def parsePyFloat (v : Value) : Option Rat :=
  match v with
  | .vStr s => parseDecimal s
  | .vInt n => some (n : Rat)
  | .vFloat q => some q
  | .vBool b => some (if b then 1 else 0)
  | _ => none

/-- The premium-price extraction of `_determine_domain_price`
(`src/namecheap/enhanced/domains.py` lines 227-232): present key parsed
as float, any `ValueError`/`TypeError` downgraded to `0.0`; absent key
leaves the initial `0.0`. -/
def premiumPrice (domainInfo : List (String × Value)) : Rat :=
  match lookupA domainInfo "PremiumRegistrationPrice" with
  | some v => (parsePyFloat v).getD 0
  | none => 0

/-- `_determine_domain_price` from `src/namecheap/enhanced/domains.py`
lines 208-252, parameterized by `suffixOf`, which models
`tldextract.extract(domain).suffix` (the external public-suffix
library). -/
def determineDomainPrice (suffixOf : String → String)
    (pricing : List (String × Rat)) (domain : String)
    (domainInfo : List (String × Value)) : Rat :=
  let tld := "." ++ suffixOf domain
  let regularPrice := (lookupS pricing tld).getD 0
  let premium := premiumPrice domainInfo
  if (getD domainInfo "IsPremiumName" (.vBool false)).truthy && 0 < premium then
    premium
  else if 0 < regularPrice then regularPrice
  else 0

/-- Append without duplicating (the `tlds.add` of a Python `set`, in
first-insertion order). -/
def addUnique (l : List String) (x : String) : List String :=
  if x ∈ l then l else l ++ [x]

/-- The TLD-collection loop of `check_with_pricing`
(`src/namecheap/enhanced/domains.py` lines 42-51): the distinct suffixes
of the available dict-shaped results. -/
def collectTlds (suffixOf : String → String)
    (domainResults : List Value) : List String :=
  domainResults.foldl
    (fun acc di =>
      match di with
      | .vMap fs =>
        if (getD fs "Available" (.vBool false)).truthy then
          addUnique acc ("." ++ suffixOf (strOf (getD fs "Domain" (.vStr ""))))
        else acc
      | _ => acc)
    []

/-- One output record of `check_with_pricing`
(`src/namecheap/enhanced/domains.py` lines 62-79): `Domain`, `Available`
and `IsPremiumName` copied through, `Price` defaulting to `0.0` and
recomputed for available domains containing a dot. -/
def enhancedEntry (suffixOf : String → String)
    (pricing : List (String × Rat)) (fs : List (String × Value)) :
    List (String × Value) :=
  let domain := getD fs "Domain" (.vStr "")
  let isAvailable := getD fs "Available" (.vBool false)
  let isPremium := getD fs "IsPremiumName" (.vBool false)
  let price : Rat :=
    if isAvailable.truthy && containsSub (strOf domain) "." then
      determineDomainPrice suffixOf pricing (strOf domain) fs
    else 0
  [("Domain", domain), ("Available", isAvailable),
   ("IsPremiumName", isPremium), ("Price", .vFloat price)]

/-- `check_with_pricing` from `src/namecheap/enhanced/domains.py` lines
22-81, parameterized by the availability results already returned by
`domains.check` and by the per-suffix price lookup; returns the
`DomainCheckResult` record list together with the pricing log. -/
def checkWithPricing (suffixOf : String → String)
    (getPrice : String → Except String Rat)
    (domainResults : List Value) :
    List (List (String × Value)) × List (String × String) :=
  let pricingLog := getTldPricing getPrice (collectTlds suffixOf domainResults)
  (domainResults.filterMap
    (fun di =>
      match di with
      | .vMap fs => some (enhancedEntry suffixOf pricingLog.1 fs)
      | _ => none),
   pricingLog.2)

theorem pySplitChar_ne_nil (sep : Char) (cs : List Char) :
    pySplitChar sep cs ≠ [] := by
  cases cs with
  | nil => simp [pySplitChar]
  | cons c cs =>
    simp only [pySplitChar]
    split
    · simp
    · split <;> simp

theorem pySplitChar_append (cs ds : List Char) (h : '.' ∉ cs) :
    pySplitChar '.' (cs ++ '.' :: ds) = cs :: pySplitChar '.' ds := by
  induction cs with
  | nil => simp [pySplitChar]
  | cons c cs ih =>
    have hc : c ≠ '.' := by
      intro hc; exact h (hc ▸ List.mem_cons_self c cs)
    have hcs : '.' ∉ cs := fun hm => h (List.mem_cons_of_mem c hm)
    simp only [List.cons_append, pySplitChar, if_neg hc]
    rw [show cs.append ('.' :: ds) = cs ++ '.' :: ds from rfl, ih hcs]

theorem joinDotChars_pySplitChar (ds : List Char) :
    joinDotChars (pySplitChar '.' ds) = ds := by
  induction ds with
  | nil => rfl
  | cons c cs ih =>
    simp only [pySplitChar]
    by_cases hc : c = '.'
    · subst hc
      simp only [if_pos rfl]
      obtain ⟨g, gs, hgs⟩ : ∃ g gs, pySplitChar '.' cs = g :: gs := by
        cases hsp : pySplitChar '.' cs with
        | nil => exact absurd hsp (pySplitChar_ne_nil '.' cs)
        | cons g gs => exact ⟨g, gs, rfl⟩
      rw [hgs]
      rw [hgs] at ih
      simpa [joinDotChars] using ih
    · simp only [if_neg hc]
      cases hsp : pySplitChar '.' cs with
      | nil => exact absurd hsp (pySplitChar_ne_nil '.' cs)
      | cons g gs =>
        rw [hsp] at ih
        cases gs with
        | nil =>
          simp only [joinDotChars] at ih ⊢
          rw [ih]
        | cons g2 gs2 =>
          simp only [joinDotChars] at ih ⊢
          rw [List.cons_append, ih]

/-- Claim C1 (counterexample): the SLD/TLD split applied to
`"foo.bar.co.uk"` yields the naive first-dot split
`("foo", "bar.co.uk")`, not the public-suffix separation
`("bar", "co.uk")` that the claim asserts. -/
theorem splitDomainName_foo_bar_co_uk :
    splitDomainName "foo.bar.co.uk" = ("foo", "bar.co.uk") ∧
      splitDomainName "foo.bar.co.uk" ≠ ("bar", "co.uk") := by
  constructor <;> decide

/-- Claim C1 (amended): the SLD/TLD split sent to the API by the command
methods that call `_split_domain_name` — the domains and DNS methods of
`src/namecheap/api/domains/base.py` and `src/namecheap/api/domains/dns.py`,
among them `get_hosts`, `set_hosts`, `get_contacts`, `get_info` and
`renew` — is the naive first-dot split, not a public-suffix-aware one:
for every domain name of the form `sld ++ "." ++ tld` with `sld`
dot-free, `_split_domain_name` returns `(sld, tld)` — everything after
the first dot becomes the TLD, regardless of multi-label public
suffixes.  (Only the nameserver methods of
`src/namecheap/api/domains/ns.py` instead split via
`tldextract.extract`, which is public-suffix-aware.) -/
theorem splitDomainName_first_dot (sld tld : String) (h : '.' ∉ sld.data) :
    splitDomainName (sld ++ "." ++ tld) = (sld, tld) := by
  have hdata : (sld ++ "." ++ tld).data = sld.data ++ '.' :: tld.data := by
    simp [String.data_append]
  unfold splitDomainName
  rw [hdata, pySplitChar_append sld.data tld.data h]
  simp only [joinDotChars_pySplitChar]

/-- Claim C1 (witness for the amended theorem): instantiation at
`"foo" ++ "." ++ "bar.co.uk"`. -/
theorem splitDomainName_first_dot_witness :
    '.' ∉ "foo".data ∧
      splitDomainName ("foo" ++ "." ++ "bar.co.uk") = ("foo", "bar.co.uk") :=
  ⟨by decide, splitDomainName_first_dot "foo" "bar.co.uk" (by decide)⟩

theorem lookupA_eq_none (l : List (String × Value)) (k : String) :
    lookupA l k = none ↔ ∀ p ∈ l, p.1 ≠ k := by
  induction l with
  | nil => simp [lookupA]
  | cons p rest ih =>
    by_cases h : p.1 = k
    · simp [lookupA, h]
    · simp [lookupA, h, ih]

theorem setA_append (l : List (String × Value)) (k : String) (v : Value)
    (h : lookupA l k = none) : setA l k v = l ++ [(k, v)] := by
  induction l with
  | nil => rfl
  | cons p rest ih =>
    have hp : p.1 ≠ k := (lookupA_eq_none _ _).1 h p (List.mem_cons_self p rest)
    have hrest : lookupA rest k = none := by
      rw [lookupA_eq_none] at h ⊢
      exact fun q hq => h q (List.mem_cons_of_mem p hq)
    cases p with
    | mk k' v' =>
      simp only [setA, if_neg hp, ih hrest, List.cons_append]

theorem lookupA_append (l1 l2 : List (String × Value)) (k : String) :
    lookupA (l1 ++ l2) k =
      match lookupA l1 k with
      | some v => some v
      | none => lookupA l2 k := by
  induction l1 with
  | nil => simp [lookupA]
  | cons p rest ih =>
    by_cases h : p.1 = k
    · cases p; simp_all [lookupA]
    · cases p; simp_all [lookupA]

theorem pass1_aux (fm : List (String × String)) (fs acc : List (String × Value))
    (hnd : (fs.map (fun kv => cleanKey fm kv.1)).Nodup)
    (hdisj : ∀ kv ∈ fs, lookupA acc (cleanKey fm kv.1) = none) :
    fs.foldl (fun acc kv => setA acc (cleanKey fm kv.1) kv.2) acc
      = acc ++ fs.map (fun kv => (cleanKey fm kv.1, kv.2)) := by
  induction fs generalizing acc with
  | nil => simp
  | cons kv fs ih =>
    simp only [List.foldl_cons, List.map_cons]
    rw [List.map_cons] at hnd
    have hnd2 := List.nodup_cons.mp hnd
    have hk := hdisj kv (List.mem_cons_self kv fs)
    rw [setA_append acc _ _ hk]
    have hhead : ∀ q ∈ fs, cleanKey fm kv.1 ≠ cleanKey fm q.1 := by
      intro q hq he
      exact hnd2.1 (he ▸ List.mem_map_of_mem (fun kv => cleanKey fm kv.1) hq)
    have hdisj' : ∀ q ∈ fs, lookupA (acc ++ [(cleanKey fm kv.1, kv.2)])
        (cleanKey fm q.1) = none := by
      intro q hq
      rw [lookupA_append]
      rw [hdisj q (List.mem_cons_of_mem kv hq)]
      simp [lookupA, hhead q hq]
    rw [ih _ hnd2.2 hdisj', List.append_assoc]
    rfl

theorem pass1_eq (fm : List (String × String)) (fs : List (String × Value))
    (hnd : (fs.map (fun kv => cleanKey fm kv.1)).Nodup) :
    pass1 fm fs = fs.map (fun kv => (cleanKey fm kv.1, kv.2)) := by
  have := pass1_aux fm fs [] hnd (fun kv _ => rfl)
  simpa [pass1] using this

theorem map_id_of_no_key (l : List (String × Value)) (f : String)
    (g : Value → Value) (h : ∀ kv ∈ l, kv.1 ≠ f) :
    l.map (fun kv => (kv.1, if kv.1 = f then g kv.2 else kv.2)) = l := by
  induction l with
  | nil => rfl
  | cons p rest ih =>
    have hp : p.1 ≠ f := h p (List.mem_cons_self p rest)
    simp only [List.map_cons, if_neg hp, ih (fun q hq => h q (List.mem_cons_of_mem p hq))]

theorem dtUpdate_cons_ne (f k : String) (v : Value)
    (rest : List (String × Value)) (hk : k ≠ f) :
    dtUpdate f ((k, v) :: rest) = (k, v) :: dtUpdate f rest := by
  have hl : lookupA ((k, v) :: rest) f = lookupA rest f := by
    simp [lookupA, hk]
  unfold dtUpdate
  rw [hl]
  cases h : lookupA rest f with
  | none => rfl
  | some w =>
    cases w <;> simp only []
    case vStr s =>
      cases hd : dtParse s with
      | none => rfl
      | some d => simp [setA, hk]

theorem dtUpdate_map (f : String) (l : List (String × Value))
    (h : (l.map Prod.fst).Nodup) :
    dtUpdate f l = l.map (fun kv => (kv.1, if kv.1 = f then dtc1 kv.2 else kv.2)) := by
  induction l with
  | nil => rfl
  | cons p rest ih =>
    obtain ⟨k, v⟩ := p
    rw [List.map_cons] at h
    have hnd := List.nodup_cons.mp h
    by_cases hk : k = f
    · subst hk
      have hrest : ∀ kv ∈ rest, kv.1 ≠ k := by
        intro kv hkv he
        exact hnd.1 (by simpa [he] using List.mem_map_of_mem Prod.fst hkv)
      have hmap := map_id_of_no_key rest k dtc1 hrest
      have hl : lookupA ((k, v) :: rest) k = some v := by simp [lookupA]
      unfold dtUpdate
      rw [hl]
      cases v with
      | vStr s =>
        cases hd : dtParse s with
        | none =>
          simp only [List.map_cons, hmap]
          simp [dtc1, hd]
        | some d =>
          simp only [List.map_cons, hmap]
          simp [dtc1, hd, setA]
      | vBool b => simp only [List.map_cons, hmap]; simp [dtc1]
      | vInt n => simp only [List.map_cons, hmap]; simp [dtc1]
      | vFloat q => simp only [List.map_cons, hmap]; simp [dtc1]
      | vNone => simp only [List.map_cons, hmap]; simp [dtc1]
      | vDate d => simp only [List.map_cons, hmap]; simp [dtc1]
      | vMap m => simp only [List.map_cons, hmap]; simp [dtc1]
      | vList xs => simp only [List.map_cons, hmap]; simp [dtc1]
    · rw [dtUpdate_cons_ne f k v rest hk, ih hnd.2]
      simp [hk]

theorem dtc1_idem (v : Value) : dtc1 (dtc1 v) = dtc1 v := by
  cases v <;> simp [dtc1]
  case vStr s =>
    cases hd : dtParse s with
    | none => simp [dtc1, hd]
    | some d => simp [dtc1, hd]

theorem dtCoerce_cons (f : String) (df : List String) (k : String) (v : Value) :
    dtCoerce (f :: df) k v = dtCoerce df k (if k = f then dtc1 v else v) := by
  by_cases hk : k = f
  · by_cases hdf : k ∈ df <;> simp [dtCoerce, hk, hdf, dtc1_idem, List.mem_cons]
  · by_cases hdf : k ∈ df <;> simp [dtCoerce, hk, hdf, List.mem_cons]

theorem pass3_map (df : List String) (l : List (String × Value))
    (h : (l.map Prod.fst).Nodup) :
    pass3 df l = l.map (fun kv => (kv.1, dtCoerce df kv.1 kv.2)) := by
  induction df generalizing l with
  | nil =>
    simp only [pass3, List.foldl_nil]
    have : l.map (fun kv => (kv.1, dtCoerce [] kv.1 kv.2)) = l := by
      have : ∀ kv : String × Value, (kv.1, dtCoerce [] kv.1 kv.2) = kv := by
        intro kv; simp [dtCoerce]
      simp [this]
    rw [this]
  | cons f df ih =>
    have hstep : pass3 (f :: df) l = pass3 df (dtUpdate f l) := rfl
    rw [hstep, dtUpdate_map f l h]
    have hkeys : ((l.map (fun kv => (kv.1, if kv.1 = f then dtc1 kv.2 else kv.2))).map
        Prod.fst).Nodup := by
      rw [List.map_map]
      simpa using h
    rw [ih _ hkeys, List.map_map]
    apply List.map_congr_left
    intro kv _
    simp only [Function.comp]
    rw [dtCoerce_cons]

theorem normalizeItem_pointwise (fs : List (String × Value))
    (fm : List (String × String)) (bf df : List String)
    (hnd : (fs.map (fun kv => cleanKey fm kv.1)).Nodup) :
    normalizeItem (.vMap fs) fm bf df =
      .ok (fs.map (fun kv =>
        (cleanKey fm kv.1,
         dtCoerce df (cleanKey fm kv.1) (boolStep bf (cleanKey fm kv.1) kv.2)))) := by
  have h1 : normalizeItem (.vMap fs) fm bf df =
      .ok (pass3 df (pass2 bf (pass1 fm fs))) := rfl
  rw [h1, pass1_eq fm fs hnd]
  have hkeys : (((fs.map (fun kv => (cleanKey fm kv.1, kv.2))).map
      (fun kv => (kv.1, boolStep bf kv.1 kv.2))).map Prod.fst).Nodup := by
    rw [List.map_map, List.map_map]
    simpa using hnd
  unfold pass2
  rw [pass3_map df _ hkeys, List.map_map, List.map_map]
  rfl

/-- Claim C2 (counterexample): parsing an `ERROR` envelope whose code
`"9999999"` is absent from the catalog, while the catalog does contain an
`UNKNOWN_ERROR` entry, raises an error with `explanation = none` and
`fix = none`: the catalog's `UNKNOWN_ERROR` entry is not used as the
generic fallback, contrary to the claim. -/
theorem parse_unknown_code_no_fallback :
    parseResponse (.ok (errEnvelope "9999999" "Some failure")) "<raw/>"
        (some [("UNKNOWN_ERROR",
          [("explanation", "Domain operation failed"),
           ("fix", "Verify all parameters are correct and try again")])]) []
      = .error { code := .vStr "9999999", message := .vStr "Some failure",
                 explanation := none, fix := none,
                 rawResponse := some "<raw/>" } ∧
      (none : Option String) ≠ some "Domain operation failed" := by
  constructor
  · rfl
  · simp

/-- Claim C2 (amended): for an `ERROR` envelope with code `c` and message
`m`, against a non-empty catalog: when `c` is in the catalog, the raised
error's explanation and fix are the catalog entry's strings with the
context tokens substituted; when `c` is not in the catalog, explanation
and fix are `none` — the catalog's own `UNKNOWN_ERROR` entry is consulted
only when the envelope omits the error number, in which case the code
defaults to the string `"UNKNOWN_ERROR"` itself. -/
theorem parse_error_catalog (c m raw : String) (cat : ErrorCatalog)
    (ctx : List (String × Value)) (hne : cat ≠ []) :
    (∀ info, lookupS cat c = some info →
      parseResponse (.ok (errEnvelope c m)) raw (some cat) ctx =
        .error { code := .vStr c, message := .vStr m,
                 explanation := some (substTokens ctx (getSD info "explanation" "")),
                 fix := some (substTokens ctx (getSD info "fix" "")),
                 rawResponse := some raw }) ∧
    (lookupS cat c = none →
      parseResponse (.ok (errEnvelope c m)) raw (some cat) ctx =
        .error { code := .vStr c, message := .vStr m, explanation := none,
                 fix := none, rawResponse := some raw }) ∧
    (∀ info, lookupS cat "UNKNOWN_ERROR" = some info →
      parseResponse (.ok (errEnvelopeNoNum m)) raw (some cat) ctx =
        .error { code := .vStr "UNKNOWN_ERROR", message := .vStr m,
                 explanation := some (substTokens ctx (getSD info "explanation" "")),
                 fix := some (substTokens ctx (getSD info "fix" "")),
                 rawResponse := some raw }) := by
  obtain ⟨e0, cat', rfl⟩ : ∃ e0 cat', cat = e0 :: cat' := by
    cases cat with
    | nil => exact absurd rfl hne
    | cons e0 cat' => exact ⟨e0, cat', rfl⟩
  refine ⟨fun info hinfo => ?_, fun hnone => ?_, fun info hinfo => ?_⟩
  · simp [parseResponse, parseResponseInner, errEnvelope, getD, lookupA,
      pyGetE, isErrorStatus, catalogLookup, hinfo]
  · simp [parseResponse, parseResponseInner, errEnvelope, getD, lookupA,
      pyGetE, isErrorStatus, catalogLookup, hnone]
  · simp [parseResponse, parseResponseInner, errEnvelopeNoNum, getD, lookupA,
      pyGetE, isErrorStatus, catalogLookup, hinfo]

/-- Claim C2 (witness for the amended theorem): instantiation at a
concrete catalog, context, known code, unknown code and absent code. -/
theorem parse_error_catalog_witness :
    (([("2019166", [("explanation", "Domain \x7bdomain_name\x7d not found"),
                    ("fix", "Check it")])] : ErrorCatalog) ≠ []) ∧
    (parseResponse (.ok (errEnvelope "2019166" "oops")) "<r/>"
        (some [("2019166", [("explanation", "Domain \x7bdomain_name\x7d not found"),
                            ("fix", "Check it")])])
        [("domain_name", .vStr "example.com")] =
      .error { code := .vStr "2019166", message := .vStr "oops",
               explanation := some "Domain example.com not found",
               fix := some "Check it", rawResponse := some "<r/>" }) := by
  constructor
  · simp
  · have h := (parse_error_catalog "2019166" "oops" "<r/>"
      [("2019166", [("explanation", "Domain \x7bdomain_name\x7d not found"),
                    ("fix", "Check it")])]
      [("domain_name", .vStr "example.com")] (by simp)).1
      [("explanation", "Domain \x7bdomain_name\x7d not found"), ("fix", "Check it")]
      rfl
    rw [h]
    rfl

/-- Claim C6: evaluation of `_parse_response` at the failing input — the
repository's own test response text whose XML is malformed (`</e>` tag)
while carrying code 1011102 and the invalid-API-key message.  No
sentinel-substring pre-scan exists in the code, so XML parsing raises and
the wrapped error carries code `"PARSE_ERROR"` — not `"1011102"` — and a
message without the documented remediation URL. -/
theorem parse_malformed_apikey_response :
    parseResponse
        (.error "mismatched tag: line 4, column 88") malformedApiKeyResponse
        none []
      = .error { code := .vStr "PARSE_ERROR",
                 message := .vStr
                   "Failed to parse API response: mismatched tag: line 4, column 88",
                 explanation := none, fix := none,
                 rawResponse := some malformedApiKeyResponse } ∧
      (Value.vStr "PARSE_ERROR" ≠ .vStr "1011102") ∧
      containsSub "Failed to parse API response: mismatched tag: line 4, column 88"
        "https://ap.www.namecheap.com" = false := by
  refine ⟨rfl, by simp, by decide⟩

/-- Claim C9: only the exact top-level status string `"ERROR"` triggers
the error-raising path; for every parsed envelope whose `ApiResponse`
value is a mapping with `@Status` anything else (absent reads as
`"UNKNOWN"`), `_parse_response` returns the `CommandResponse` subtree, or
an empty mapping when that subtree is absent. -/
theorem parse_non_error_status (top af : List (String × Value)) (raw : String)
    (cat : Option ErrorCatalog) (ctx : List (String × Value))
    (har : getD top "ApiResponse" (.vMap []) = .vMap af)
    (hst : isErrorStatus (getD af "@Status" (.vStr "UNKNOWN")) = false) :
    parseResponse (.ok top) raw cat ctx =
      .ok (getD af "CommandResponse" (.vMap [])) := by
  simp [parseResponse, parseResponseInner, har, pyGetE, hst]

/-- Claim C9 (witness): a parsed envelope with `@Status = "OK"` and no
`CommandResponse` subtree returns the empty mapping. -/
theorem parse_non_error_status_witness :
    (getD [("ApiResponse", Value.vMap [("@Status", Value.vStr "OK")])]
        "ApiResponse" (.vMap []) = .vMap [("@Status", Value.vStr "OK")]) ∧
    (isErrorStatus (getD [("@Status", Value.vStr "OK")] "@Status"
        (.vStr "UNKNOWN")) = false) ∧
    (parseResponse (.ok [("ApiResponse", Value.vMap [("@Status", Value.vStr "OK")])])
        "<r/>" none [] = .ok (.vMap [])) :=
  ⟨rfl, rfl,
    parse_non_error_status [("ApiResponse", Value.vMap [("@Status", Value.vStr "OK")])]
      [("@Status", Value.vStr "OK")] "<r/>" none [] rfl rfl⟩

theorem stripAt_of_not_at (k : String) (h : atKey k = false) : stripAt k = k := by
  unfold stripAt
  unfold atKey at h
  cases hd : k.data with
  | nil => rfl
  | cons c rest =>
    rw [hd] at h
    simp only [decide_eq_false_iff_not] at h
    simp [h]

theorem cleanKey_of_not_at (k : String) (h : atKey k = false) :
    cleanKey [] k = k := by
  unfold cleanKey lookupS
  exact stripAt_of_not_at k h

theorem boolStep_vBool (bf : List String) (k : String) (b : Bool) :
    boolStep bf k (.vBool b) = .vBool b := by
  unfold boolStep; split <;> rfl

theorem boolStep_vDate (bf : List String) (k : String) (d : PyDateTime) :
    boolStep bf k (.vDate d) = .vDate d := by
  unfold boolStep; split <;> rfl

theorem dtCoerce_vBool (df : List String) (k : String) (b : Bool) :
    dtCoerce df k (.vBool b) = .vBool b := by
  unfold dtCoerce; split <;> rfl

theorem dtCoerce_vDate (df : List String) (k : String) (d : PyDateTime) :
    dtCoerce df k (.vDate d) = .vDate d := by
  unfold dtCoerce; split <;> rfl

/-- Claim C5 (counterexample): in list mode, a resolved value that is a
single (non-list) empty mapping yields the empty list, not the
one-element list `[{}]` that the claim requires for every single
scalar-or-mapping value — the wrap `[data] if data else []` tests Python
truthiness, and an empty mapping is falsy. -/
theorem normalize_empty_map_not_singleton :
    normalizeApiResponse (.vMap [("A", .vMap [])]) (some "A") [] [] [] "list"
        = .ok (.vList []) ∧
      (Except.ok (Value.vList []) : Except String Value)
        ≠ .ok (.vList [.vMap []]) := by
  constructor
  · rfl
  · simp

/-- Claim C5 (amended): in list mode, a resolved value that is a single
non-list mapping is wrapped into a one-element list when it is non-empty
(truthy) and yields the empty list when it is empty (falsy); a missing
dot-path segment yields `[]` in list mode and `\x7b\x7d` in object mode,
without raising. -/
theorem normalize_list_mode (key : String) (inner resp : List (String × Value))
    (fm : List (String × String)) (bf df : List String)
    (hkey : pySplit '.' key = [key]) (hkey0 : key ≠ "") :
    (inner ≠ [] →
      normalizeApiResponse (.vMap [(key, .vMap inner)]) (some key) fm bf df "list"
        = .ok (.vList [.vMap (pass3 df (pass2 bf (pass1 fm inner)))])) ∧
    (normalizeApiResponse (.vMap [(key, .vMap [])]) (some key) fm bf df "list"
      = .ok (.vList [])) ∧
    (lookupA resp key = none →
      normalizeApiResponse (.vMap resp) (some key) fm bf df "list"
          = .ok (.vList []) ∧
        normalizeApiResponse (.vMap resp) (some key) fm bf df "dict"
          = .ok (.vMap [])) := by
  refine ⟨fun hinner => ?_, ?_, fun hmiss => ⟨?_, ?_⟩⟩
  · cases inner with
    | nil => exact absurd rfl hinner
    | cons x xs =>
      simp [normalizeApiResponse, hkey, hkey0, resolvePath, pyContains, memA,
        lookupA, pyIndexS, Value.truthy, Value.isList, normalizeItems,
        normalizeItem]
  · simp [normalizeApiResponse, hkey, hkey0, resolvePath, pyContains, memA,
      lookupA, pyIndexS, Value.truthy, Value.isList, normalizeItems]
  · simp [normalizeApiResponse, hkey, hkey0, resolvePath, pyContains, memA,
      hmiss]
  · simp [normalizeApiResponse, hkey, hkey0, resolvePath, pyContains, memA,
      hmiss]

/-- Claim C5 (witness for the amended theorem): instantiation at key
`"A"`, a one-field inner mapping, and a response without the key. -/
theorem normalize_list_mode_witness :
    (pySplit '.' "A" = ["A"]) ∧ ("A" : String) ≠ "" ∧
    (([("B", Value.vStr "x")] : List (String × Value)) ≠ []) ∧
    normalizeApiResponse (.vMap [("A", .vMap [("B", Value.vStr "x")])])
        (some "A") [] [] [] "list"
      = .ok (.vList [.vMap (pass3 [] (pass2 [] (pass1 [] [("B", Value.vStr "x")])))]) ∧
    normalizeApiResponse (.vMap [("Other", Value.vNone)]) (some "A") [] [] [] "list"
      = .ok (.vList []) := by
  refine ⟨by decide, by decide, by simp, ?_, ?_⟩
  · exact (normalize_list_mode "A" [("B", Value.vStr "x")] [] [] [] []
      (by decide) (by decide)).1 (by simp)
  · exact ((normalize_list_mode "A" [("B", Value.vStr "x")]
      [("Other", Value.vNone)] [] [] [] (by decide) (by decide)).2.2 rfl).1

/-- Claim C7 (counterexample): normalization can raise — when the value
resolved at the path is a plain string, `_normalize_item` calls
`.items()` on a non-dict and the `AttributeError` propagates, contrary
to the claim that normalization never raises. -/
theorem normalize_raises_on_scalar :
    normalizeApiResponse (.vMap [("A", .vStr "hello")]) (some "A") [] [] [] "dict"
      = .error "AttributeError: object has no attribute items" := by
  rfl

/-- Claim C7 (amended): for every mapping item whose cleaned keys are
distinct, `_normalize_item` never raises and rewrites the fields
pointwise, in order: unknown fields are kept; a string in a field that is
neither `Is`-prefixed nor listed as boolean passes through unchanged
unless it is literally true/false, and a string in a datetime field that
matches no format pattern stays the original string — but a string in an
`Is`-prefixed or listed boolean field is always coerced to a boolean
(unrecognized tokens become `False`), and an item that is not a mapping
(e.g. a scalar reached in list mode) raises `AttributeError`. -/
theorem normalizeItem_total_pointwise (fs : List (String × Value))
    (fm : List (String × String)) (bf df : List String)
    (hnd : (fs.map (fun kv => cleanKey fm kv.1)).Nodup) :
    normalizeItem (.vMap fs) fm bf df =
      .ok (fs.map (fun kv =>
        (cleanKey fm kv.1,
         dtCoerce df (cleanKey fm kv.1) (boolStep bf (cleanKey fm kv.1) kv.2)))) :=
  normalizeItem_pointwise fs fm bf df hnd

/-- Claim C7 (witness for the amended theorem): a concrete item with an
unknown plain field (kept, passed through), an `Is`-prefixed field with
an unrecognized token (coerced to `False`) and an unparsable datetime
field (left as the original string). -/
theorem normalizeItem_total_pointwise_witness :
    (([("Name", Value.vStr "www"), ("IsActive", Value.vStr "banana"),
       ("Created", Value.vStr "not-a-date")].map
        (fun kv => cleanKey [] kv.1)).Nodup) ∧
    normalizeItem (.vMap [("Name", Value.vStr "www"),
        ("IsActive", Value.vStr "banana"),
        ("Created", Value.vStr "not-a-date")]) [] [] ["Created"]
      = .ok [("Name", Value.vStr "www"), ("IsActive", Value.vBool false),
             ("Created", Value.vStr "not-a-date")] := by
  constructor
  · decide
  · rw [normalizeItem_total_pointwise _ _ _ _ (by decide)]
    rfl

/-- Claim C8: the normalizer's coercion is idempotent on already-coerced
values: in a mapping item with distinct keys, no `@`-prefixed keys and no
renames, every field already holding a boolean keeps exactly that boolean
and every field already holding a parsed datetime keeps exactly that
datetime after `_normalize_item` runs again. -/
theorem normalizeItem_idempotent_coercion (fs : List (String × Value))
    (bf df : List String)
    (hnd : (fs.map (fun kv => cleanKey [] kv.1)).Nodup) :
    ∃ res, normalizeItem (.vMap fs) [] bf df = .ok res ∧
      (∀ k b, atKey k = false → (k, Value.vBool b) ∈ fs →
        (k, Value.vBool b) ∈ res) ∧
      (∀ k d, atKey k = false → (k, Value.vDate d) ∈ fs →
        (k, Value.vDate d) ∈ res) := by
  refine ⟨_, normalizeItem_pointwise fs [] bf df hnd, ?_, ?_⟩
  · intro k b hak hmem
    refine List.mem_map.mpr ⟨(k, Value.vBool b), hmem, ?_⟩
    simp [cleanKey_of_not_at k hak, boolStep_vBool, dtCoerce_vBool]
  · intro k d hak hmem
    refine List.mem_map.mpr ⟨(k, Value.vDate d), hmem, ?_⟩
    simp [cleanKey_of_not_at k hak, boolStep_vDate, dtCoerce_vDate]

/-- Claim C8 (witness): instantiation at an item holding an
already-coerced boolean and an already-parsed datetime. -/
theorem normalizeItem_idempotent_coercion_witness :
    (([("IsActive", Value.vBool true),
       ("Created", Value.vDate ⟨2020, 1, 1, 10, 30, 0⟩)].map
        (fun kv => cleanKey [] kv.1)).Nodup) ∧
    (∃ res, normalizeItem (.vMap [("IsActive", Value.vBool true),
        ("Created", Value.vDate ⟨2020, 1, 1, 10, 30, 0⟩)]) [] []
        ["Created"] = .ok res ∧
      (∀ k b, atKey k = false →
        (k, Value.vBool b) ∈
          [("IsActive", Value.vBool true),
           ("Created", Value.vDate ⟨2020, 1, 1, 10, 30, 0⟩)] →
        (k, Value.vBool b) ∈ res) ∧
      (∀ k d, atKey k = false →
        (k, Value.vDate d) ∈
          [("IsActive", Value.vBool true),
           ("Created", Value.vDate ⟨2020, 1, 1, 10, 30, 0⟩)] →
        (k, Value.vDate d) ∈ res)) :=
  ⟨by decide, normalizeItem_idempotent_coercion _ _ _ (by decide)⟩

theorem hostsLoop_ok (hosts : List (List (String × Value))) (idx : Nat)
    (h : ∀ host ∈ hosts, (getD host "Type" (.vStr "")).isStr = true) :
    ∃ ps, hostsLoop idx hosts = .ok ps ∧
      ∀ i, ∀ hi : i < hosts.length,
        ("TTL" ++ toString (idx + i),
          getD (hosts.get ⟨i, hi⟩) "TTL" (.vStr "1800")) ∈ ps := by
  induction hosts generalizing idx with
  | nil =>
    refine ⟨[], rfl, ?_⟩
    intro i hi
    simp at hi
  | cons hh rest ih =>
    have hhh := h hh (List.mem_cons_self hh rest)
    obtain ⟨s, hs⟩ : ∃ s, getD hh "Type" (.vStr "") = .vStr s := by
      revert hhh
      cases getD hh "Type" (.vStr "") <;> simp [Value.isStr]
    have hp : hostParams idx hh =
        .ok ([("HostName" ++ toString idx, getD hh "Name" (.vStr "@")),
              ("RecordType" ++ toString idx, getD hh "Type" (.vStr "A")),
              ("Address" ++ toString idx, getD hh "Address" (.vStr "")),
              ("TTL" ++ toString idx, getD hh "TTL" (.vStr "1800"))] ++
             (if String.mk (s.data.map upperChar) == "MX" || memA hh "MXPref" then
                [("MXPref" ++ toString idx, getD hh "MXPref" (.vStr "10"))]
              else [])) := by
      unfold hostParams pyUpperE
      rw [hs]
    obtain ⟨rs, hrs, hmem⟩ :=
      ih (idx + 1) (fun q hq => h q (List.mem_cons_of_mem hh hq))
    have hloop : hostsLoop idx (hh :: rest) =
        .ok (([("HostName" ++ toString idx, getD hh "Name" (.vStr "@")),
              ("RecordType" ++ toString idx, getD hh "Type" (.vStr "A")),
              ("Address" ++ toString idx, getD hh "Address" (.vStr "")),
              ("TTL" ++ toString idx, getD hh "TTL" (.vStr "1800"))] ++
             (if String.mk (s.data.map upperChar) == "MX" || memA hh "MXPref" then
                [("MXPref" ++ toString idx, getD hh "MXPref" (.vStr "10"))]
              else [])) ++ rs) := by
      unfold hostsLoop
      rw [hp, hrs]
    refine ⟨_, hloop, ?_⟩
    intro i hi
    cases i with
    | zero =>
      simp [List.mem_append]
    | succ j =>
      have hj : j < rest.length := by
        simpa [Nat.succ_lt_succ_iff] using hi
      have hm := hmem j hj
      have harith : idx + 1 + j = idx + (j + 1) := by omega
      rw [harith] at hm
      exact List.mem_append_right _ hm

/-- Claim C3 (counterexample): `set_hosts` with a host record whose TTL
is 30 raises no caller-precondition error: the pre-request computation
completes and the request parameters carry `TTL1 = "30"` unchanged, so
the network call proceeds. -/
theorem setHosts_ttl30_proceeds :
    setHostsParams "example.com"
        [[("Name", Value.vStr "@"), ("Type", Value.vStr "A"),
          ("Address", Value.vStr "192.0.2.1"), ("TTL", Value.vStr "30")]]
      = .ok [("SLD", Value.vStr "example"), ("TLD", Value.vStr "com"),
             ("HostName1", Value.vStr "@"), ("RecordType1", Value.vStr "A"),
             ("Address1", Value.vStr "192.0.2.1"),
             ("TTL1", Value.vStr "30")] := by
  rfl

/-- Claim C3 (amended): `set_hosts` validates no TTL (and no other host
field): for every domain and host list whose record types are strings,
the pre-request computation succeeds and each host's TTL value — the
given value when present, the default `"1800"` otherwise, whether inside
the 60–86400 range or not — is placed unchanged into the transmitted
parameters as `TTL<i>`. -/
theorem setHosts_no_ttl_validation (domainName : String)
    (hosts : List (List (String × Value)))
    (h : ∀ host ∈ hosts, (getD host "Type" (.vStr "")).isStr = true) :
    ∃ ps, setHostsParams domainName hosts = .ok ps ∧
      ∀ i, ∀ hi : i < hosts.length,
        ("TTL" ++ toString (i + 1),
          getD (hosts.get ⟨i, hi⟩) "TTL" (.vStr "1800")) ∈ ps := by
  obtain ⟨ps0, hps0, hmem⟩ := hostsLoop_ok hosts 1 h
  refine ⟨("SLD", Value.vStr (splitDomainName domainName).1) ::
      ("TLD", Value.vStr (splitDomainName domainName).2) :: ps0,
    by simp [setHostsParams, hps0], ?_⟩
  intro i hi
  have hm := hmem i hi
  have harith : 1 + i = i + 1 := by omega
  rw [harith] at hm
  exact List.mem_cons_of_mem _ (List.mem_cons_of_mem _ hm)

/-- Claim C3 (witness for the amended theorem): instantiation at one host
with TTL `"1800"`. -/
theorem setHosts_no_ttl_validation_witness :
    (∀ host ∈ [[("Name", Value.vStr "www"), ("Type", Value.vStr "CNAME"),
        ("Address", Value.vStr "example.com."), ("TTL", Value.vStr "1800")]],
      (getD host "Type" (.vStr "")).isStr = true) ∧
    (∃ ps, setHostsParams "example.com"
        [[("Name", Value.vStr "www"), ("Type", Value.vStr "CNAME"),
          ("Address", Value.vStr "example.com."), ("TTL", Value.vStr "1800")]]
        = .ok ps ∧
      ∀ i, ∀ hi : i < [[("Name", Value.vStr "www"), ("Type", Value.vStr "CNAME"),
          ("Address", Value.vStr "example.com."),
          ("TTL", Value.vStr "1800")]].length,
        ("TTL" ++ toString (i + 1),
          getD ([[("Name", Value.vStr "www"), ("Type", Value.vStr "CNAME"),
            ("Address", Value.vStr "example.com."),
            ("TTL", Value.vStr "1800")]].get ⟨i, hi⟩) "TTL" (.vStr "1800")) ∈ ps) :=
  ⟨by decide, setHosts_no_ttl_validation "example.com" _ (by decide)⟩

/-- Claim C10: the domain-availability check called with an empty domain
list returns the empty list immediately: no request parameters are ever
handed to the transport (the request log is empty) and no error is
raised, for every possible transport behaviour. -/
theorem check_empty_domains
    (transport : List (String × Value) → Except String Value) :
    domainsCheck transport [] = (.ok (.vList []), []) := rfl

theorem lookupS_mem {α : Type} (l : List (String × α)) (k : String) (v : α)
    (h : lookupS l k = some v) : (k, v) ∈ l := by
  induction l with
  | nil => simp [lookupS] at h
  | cons p rest ih =>
    obtain ⟨k', v'⟩ := p
    unfold lookupS at h
    by_cases hk : k' = k
    · subst hk
      rw [if_pos rfl] at h
      cases h
      exact List.mem_cons_self _ _
    · rw [if_neg hk] at h
      exact List.mem_cons_of_mem _ (ih h)

theorem gtp_cons_ok (getPrice : String → Except String Rat)
    (tld : String) (rest : List String) (price : Rat)
    (hg : getPrice (stripDot tld) = .ok price) :
    getTldPricing getPrice (tld :: rest) =
      if 0 < price then
        ((tld, price) :: (getTldPricing getPrice rest).1,
         ("DEBUG", "Found price for " ++ tld) :: (getTldPricing getPrice rest).2)
      else getTldPricing getPrice rest := by
  have h0 : getTldPricing getPrice (tld :: rest) =
      match getPrice (stripDot tld) with
      | .ok price =>
        if 0 < price then
          ((tld, price) :: (getTldPricing getPrice rest).1,
           ("DEBUG", "Found price for " ++ tld) :: (getTldPricing getPrice rest).2)
        else getTldPricing getPrice rest
      | .error _ =>
        ((getTldPricing getPrice rest).1,
         ("ERROR", "Error getting pricing for " ++ tld) ::
           (getTldPricing getPrice rest).2) := rfl
  rw [h0, hg]

theorem gtp_cons_err (getPrice : String → Except String Rat)
    (tld : String) (rest : List String) (e2 : String)
    (hg : getPrice (stripDot tld) = .error e2) :
    getTldPricing getPrice (tld :: rest) =
      ((getTldPricing getPrice rest).1,
       ("ERROR", "Error getting pricing for " ++ tld) ::
         (getTldPricing getPrice rest).2) := by
  have h0 : getTldPricing getPrice (tld :: rest) =
      match getPrice (stripDot tld) with
      | .ok price =>
        if 0 < price then
          ((tld, price) :: (getTldPricing getPrice rest).1,
           ("DEBUG", "Found price for " ++ tld) :: (getTldPricing getPrice rest).2)
        else getTldPricing getPrice rest
      | .error _ =>
        ((getTldPricing getPrice rest).1,
         ("ERROR", "Error getting pricing for " ++ tld) ::
           (getTldPricing getPrice rest).2) := rfl
  rw [h0, hg]

theorem gtp_not_mem (getPrice : String → Except String Rat) (t e : String)
    (hfail : getPrice (stripDot t) = .error e) (tlds : List String) (p : Rat) :
    (t, p) ∉ (getTldPricing getPrice tlds).1 := by
  induction tlds with
  | nil => simp [getTldPricing]
  | cons tld rest ih =>
    intro hp
    cases hg : getPrice (stripDot tld) with
    | ok price =>
      rw [gtp_cons_ok getPrice tld rest price hg] at hp
      by_cases hpos : 0 < price
      · rw [if_pos hpos] at hp
        rcases List.mem_cons.mp hp with heq | htail
        · have ht : t = tld := congrArg Prod.fst heq
          rw [ht] at hfail
          rw [hg] at hfail
          cases hfail
        · exact ih htail
      · rw [if_neg hpos] at hp
        exact ih hp
    | error e2 =>
      rw [gtp_cons_err getPrice tld rest e2 hg] at hp
      exact ih hp

theorem gtp_sibling (getPrice : String → Except String Rat) (tlds : List String) :
    ∀ t' p, t' ∈ tlds → getPrice (stripDot t') = .ok p → 0 < p →
      (t', p) ∈ (getTldPricing getPrice tlds).1 := by
  induction tlds with
  | nil => simp
  | cons tld rest ih =>
    intro t' p hmem hok hpos
    rcases List.mem_cons.mp hmem with heq | htail
    · subst heq
      rw [gtp_cons_ok getPrice t' rest p hok, if_pos hpos]
      exact List.mem_cons_self _ _
    · cases hg : getPrice (stripDot tld) with
      | ok price =>
        rw [gtp_cons_ok getPrice tld rest price hg]
        by_cases hpos2 : 0 < price
        · rw [if_pos hpos2]
          exact List.mem_cons_of_mem _ (ih t' p htail hok hpos)
        · rw [if_neg hpos2]
          exact ih t' p htail hok hpos
      | error e2 =>
        rw [gtp_cons_err getPrice tld rest e2 hg]
        exact ih t' p htail hok hpos

theorem gtp_log (getPrice : String → Except String Rat) (t e : String)
    (hfail : getPrice (stripDot t) = .error e) (tlds : List String) :
    t ∈ tlds →
      ("ERROR", "Error getting pricing for " ++ t) ∈
        (getTldPricing getPrice tlds).2 := by
  induction tlds with
  | nil => simp
  | cons tld rest ih =>
    intro hmem
    rcases List.mem_cons.mp hmem with heq | htail
    · subst heq
      rw [gtp_cons_err getPrice t rest e hfail]
      exact List.mem_cons_self _ _
    · cases hg : getPrice (stripDot tld) with
      | ok price =>
        rw [gtp_cons_ok getPrice tld rest price hg]
        by_cases hpos : 0 < price
        · rw [if_pos hpos]
          exact List.mem_cons_of_mem _ (ih htail)
        · rw [if_neg hpos]
          exact ih htail
      | error e2 =>
        rw [gtp_cons_err getPrice tld rest e2 hg]
        exact List.mem_cons_of_mem _ (ih htail)

theorem filterMap_vMap_length (l : List Value)
    (f : List (String × Value) → List (String × Value)) :
    (l.filterMap (fun di =>
      match di with
      | .vMap fs => some (f fs)
      | _ => none)).length = (l.filter Value.isMap).length := by
  induction l with
  | nil => rfl
  | cons di rest ih =>
    cases di <;> simp [List.filterMap_cons, List.filter_cons, Value.isMap, ih]

/-- Claim C4: in the composite check-with-pricing operation a failing
per-suffix price lookup is caught and logged at ERROR level, the failed
suffix simply contributes no pricing entry while every sibling suffix's
successful positive lookup still does, the overall per-domain result list
is still produced in full (one record per dict-shaped check result), and
a non-premium domain whose suffix's lookup failed ends with the default
`Price = 0.0`. -/
theorem checkWithPricing_degrades (suffixOf : String → String)
    (getPrice : String → Except String Rat) (domainResults : List Value)
    (t e : String) (hfail : getPrice (stripDot t) = .error e) :
    ((checkWithPricing suffixOf getPrice domainResults).1.length =
        (domainResults.filter Value.isMap).length) ∧
    (t ∈ collectTlds suffixOf domainResults →
      ("ERROR", "Error getting pricing for " ++ t) ∈
        (checkWithPricing suffixOf getPrice domainResults).2) ∧
    (∀ tlds p, (t, p) ∉ (getTldPricing getPrice tlds).1) ∧
    (∀ tlds t' p, t' ∈ tlds → getPrice (stripDot t') = .ok p → 0 < p →
      (t', p) ∈ (getTldPricing getPrice tlds).1) ∧
    (∀ fs tlds,
      "." ++ suffixOf (strOf (getD fs "Domain" (.vStr ""))) = t →
      (getD fs "IsPremiumName" (.vBool false)).truthy = false →
      lookupA (enhancedEntry suffixOf (getTldPricing getPrice tlds).1 fs)
        "Price" = some (.vFloat 0)) := by
  refine ⟨?_, ?_, ?_, ?_, ?_⟩
  · exact filterMap_vMap_length domainResults _
  · exact fun hmem => gtp_log getPrice t e hfail _ hmem
  · exact fun tlds p => gtp_not_mem getPrice t e hfail tlds p
  · exact fun tlds => gtp_sibling getPrice tlds
  · intro fs tlds hsuf hprem
    have hreg : lookupS (getTldPricing getPrice tlds).1 t = none := by
      cases hl : lookupS (getTldPricing getPrice tlds).1 t with
      | none => rfl
      | some p =>
        exact absurd (lookupS_mem _ _ _ hl)
          (gtp_not_mem getPrice t e hfail tlds p)
    have hprice :
        (if (getD fs "Available" (.vBool false)).truthy &&
            containsSub (strOf (getD fs "Domain" (.vStr ""))) "." then
          determineDomainPrice suffixOf (getTldPricing getPrice tlds).1
            (strOf (getD fs "Domain" (.vStr ""))) fs
        else 0) = 0 := by
      split
      · unfold determineDomainPrice
        rw [hsuf]
        dsimp only
        rw [hreg, hprem]
        simp
      · rfl
    simp only [enhancedEntry, lookupA, hprice]
    simp

/-- Claim C4 (witness): a concrete check result whose only suffix's
lookup fails; the record list is full-length, the failure is logged, and
the domain's price is the default zero. -/
theorem checkWithPricing_degrades_witness :
    ((fun s => if s = "com" then (Except.error "boom" : Except String Rat)
        else Except.ok 10) (stripDot ".com") = Except.error "boom") ∧
    (((checkWithPricing (fun _ => "com")
        (fun s => if s = "com" then (Except.error "boom" : Except String Rat)
          else Except.ok 10)
        [Value.vMap [("Domain", Value.vStr "x.com"),
          ("Available", Value.vBool true),
          ("IsPremiumName", Value.vBool false)],
         Value.vStr "junk"]).1.length =
      ([Value.vMap [("Domain", Value.vStr "x.com"),
          ("Available", Value.vBool true),
          ("IsPremiumName", Value.vBool false)],
        Value.vStr "junk"].filter Value.isMap).length) ∧
     ((".com" ∈ collectTlds (fun _ => "com")
        [Value.vMap [("Domain", Value.vStr "x.com"),
          ("Available", Value.vBool true),
          ("IsPremiumName", Value.vBool false)],
         Value.vStr "junk"]) →
      ("ERROR", "Error getting pricing for " ++ ".com") ∈
        (checkWithPricing (fun _ => "com")
          (fun s => if s = "com" then (Except.error "boom" : Except String Rat)
            else Except.ok 10)
          [Value.vMap [("Domain", Value.vStr "x.com"),
            ("Available", Value.vBool true),
            ("IsPremiumName", Value.vBool false)],
           Value.vStr "junk"]).2) ∧
     (∀ tlds p, (".com", p) ∉
        (getTldPricing (fun s => if s = "com" then (Except.error "boom" : Except String Rat)
          else Except.ok 10) tlds).1) ∧
     (∀ tlds t' p, t' ∈ tlds →
        (fun s => if s = "com" then (Except.error "boom" : Except String Rat)
          else Except.ok 10) (stripDot t') = .ok p → 0 < p →
        (t', p) ∈ (getTldPricing
          (fun s => if s = "com" then (Except.error "boom" : Except String Rat)
            else Except.ok 10) tlds).1) ∧
     (∀ fs tlds,
        "." ++ (fun (_ : String) => "com") (strOf (getD fs "Domain" (.vStr ""))) = ".com" →
        (getD fs "IsPremiumName" (.vBool false)).truthy = false →
        lookupA (enhancedEntry (fun _ => "com")
          (getTldPricing (fun s => if s = "com" then (Except.error "boom" : Except String Rat)
            else Except.ok 10) tlds).1 fs) "Price" = some (.vFloat 0))) :=
  ⟨rfl, checkWithPricing_degrades (fun _ => "com")
    (fun s => if s = "com" then (Except.error "boom" : Except String Rat)
      else Except.ok 10)
    [Value.vMap [("Domain", Value.vStr "x.com"),
      ("Available", Value.vBool true),
      ("IsPremiumName", Value.vBool false)],
     Value.vStr "junk"] ".com" "boom" rfl⟩

end Namecheap
